import Mathlib

/-!
Verification development for the energy-metering-ingest-api repository.

The core component modelled here is the RabbitMQ publisher found in the
`internal/mq` package (type `Publisher` with methods `connect`, `isHealthy`,
`reconnect`, `Publish`, `publishWithConfirm`, `Close`), together with the
client-fingerprint helper `fingerprint.Generate`.

Modelling conventions:
- The broker, the network and the Go runtime scheduler are modelled as an
  oracle (`AttemptEnv`, one per retry-loop iteration) that decides the outcome
  of each external interaction: whether `amqp.Dial` succeeds, whether
  `conn.Channel()` succeeds, whether `channel.Confirm` succeeds, whether
  `channel.PublishWithContext` succeeds, which arm of the three-way
  confirmation `select` fires, and which arm of the backoff `select` fires.
- The mutable fields `conn`, `channel`, `confirms` of `Publisher` are modelled
  by `PubState` and threaded explicitly through the functions.
- Go `time.Duration` values are 64-bit signed integers (nanoseconds); the
  backoff expression `p.retryBaseDelay * time.Duration(1<<uint(attempt-1))`
  is therefore modelled with exact two's-complement int64 wraparound
  (`toInt64`).
- The retry for-loop `for attempt := 1; attempt <= p.maxRetries; attempt++`
  is modelled by structural recursion on a fuel argument equal to the number
  of remaining iterations; `Publish` passes `maxRetries.toNat` so the loop
  body runs for attempt = 1 .. maxRetries exactly as in the source.
-/

namespace EMIA

/-- Which arm of the three-way `select` in `publishWithConfirm` fires first:
a broker confirmation (with its positive/negative flag), the caller's
context being done, or the confirmation timeout. -/
inductive ConfirmOutcome
  | ack (positive : Bool)
  | ctxDone
  | timeout
deriving DecidableEq, Repr

/-- Which step of `connect` failed: the `amqp.Dial`, the `conn.Channel()`
call, or enabling confirm mode via `channel.Confirm(false)`. -/
inductive ConnectFailure
  | dialFailed
  | channelOpenFailed
  | confirmModeFailed
deriving DecidableEq, Repr

/-- Errors produced inside `Publish` / `publishWithConfirm`, one constructor
per error construction site in the source:
`reconnectFailed` = "reconnect failed: %w", `channelNil` = "channel is nil",
`publishFailed` = "publish failed: %w", `nack` = "publish not acknowledged by
broker", `cancelled` = `ctx.Err()`, `confirmTimeout` = "confirmation timeout". -/
inductive PubError
  | reconnectFailed (cause : ConnectFailure)
  | channelNil
  | publishFailed
  | nack
  | cancelled
  | confirmTimeout
deriving DecidableEq, Repr

/-- The amqp connection handle: carries the flag reported by `IsClosed()`. -/
structure ConnHandle where
  isClosed : Bool
deriving DecidableEq, Repr

/-- The mutable connection fields of `Publisher`: `conn`, `channel`,
`confirms`. `none` models a nil Go pointer/channel. The channel and confirms
handles carry no observable state of their own. -/
structure PubState where
  conn : Option ConnHandle
  channel : Option Unit
  confirms : Option Unit
deriving DecidableEq, Repr

/-- isHealthy: false if `conn` is nil or closed, false if `channel` is nil,
true otherwise. -/
def isHealthy (s : PubState) : Bool :=
  match s.conn with
  | none => false
  | some c => if c.isClosed then false else s.channel.isSome

/-- Per-iteration oracle for everything external to the publisher: the
outcome of each network call and of each `select`. -/
structure AttemptEnv where
  dialOk : Bool
  channelOpenOk : Bool
  confirmModeOk : Bool
  submitOk : Bool
  confirm : ConfirmOutcome
  ctxDoneAtBackoff : Bool
deriving DecidableEq, Repr

/-- connect: closes any existing channel and connection (the fields are not
set to nil, but a closed connection reports `IsClosed`), then dials, opens a
channel, enables confirm mode and installs fresh handles. On any failure the
publisher's fields keep the torn-down old handles, exactly as in the source
(the freshly created intermediate handles are closed locally). -/
def connect (s : PubState) (e : AttemptEnv) :
    Except ConnectFailure Unit × PubState :=
  let s1 : PubState := { s with conn := s.conn.map (fun _ => { isClosed := true }) }
  if e.dialOk then
    if e.channelOpenOk then
      if e.confirmModeOk then
        (Except.ok (),
          { conn := some { isClosed := false }, channel := some (), confirms := some () })
      else (Except.error ConnectFailure.confirmModeFailed, s1)
    else (Except.error ConnectFailure.channelOpenFailed, s1)
  else (Except.error ConnectFailure.dialFailed, s1)

/-- publishWithConfirm: snapshot the channel and confirmation channel under
the lock; error if the channel is nil; submit the message; then race the
broker confirmation against context cancellation and the confirmation
timeout. -/
def publishWithConfirm (s : PubState) (e : AttemptEnv) : Except PubError Unit :=
  let channel := s.channel
  match channel with
  | none => Except.error PubError.channelNil
  | some _ =>
    if e.submitOk then
      match e.confirm with
      | ConfirmOutcome.ack positive =>
        if positive then Except.ok () else Except.error PubError.nack
      | ConfirmOutcome.ctxDone => Except.error PubError.cancelled
      | ConfirmOutcome.timeout => Except.error PubError.confirmTimeout
    else Except.error PubError.publishFailed

/-- Configuration fields of `Publisher` used by the modelled methods.
`maxRetries` is a Go `int`; `retryBaseDelay` and `publishConfirmTimeout`
are `time.Duration` values (int64 nanoseconds). -/
structure PublisherCfg where
  maxRetries : Int
  retryBaseDelay : Int
  publishConfirmTimeout : Int
deriving DecidableEq, Repr

/-- Two's-complement value of an integer reduced to 64 bits
(the constants are 2^63 and 2^64). -/
def toInt64 (n : Int) : Int :=
  (n + 9223372036854775808) % 18446744073709551616 - 9223372036854775808

/-- Value of the Go expression `1 << k` at type `time.Duration` (int64):
2^k wrapped to 64 bits; in particular 0 for every k >= 64. -/
def shl1 (k : Nat) : Int := toInt64 (2 ^ k)

/-- Value of the Go expression
`p.retryBaseDelay * time.Duration(1<<uint(attempt-1))`: an int64 product. -/
def backoffDelay (base : Int) (attempt : Nat) : Int :=
  toInt64 (base * shl1 (attempt - 1))

/-- Result of `Publish`: success; `ctx.Err()` returned directly from a
backoff select; a marshalling error returned before the loop; or the
aggregate "failed to publish after %d attempts: %w" error carrying
`p.maxRetries` and the last underlying failure (`none` models wrapping a
nil `lastErr`). -/
inductive PublishResult
  | success
  | ctxCancelled
  | marshalError
  | aggregate (attempts : Int) (last : Option PubError)
deriving DecidableEq, Repr

/-- One iteration of the retry loop up to (and excluding) the backoff block:
check health, reconnect if unhealthy (a reconnect failure is the attempt's
failure), otherwise publish with confirmation. Returns the attempt's outcome
and the publisher state after the attempt. -/
def attemptStep (s : PubState) (e : AttemptEnv) : Except PubError Unit × PubState :=
  if isHealthy s then (publishWithConfirm s e, s)
  else
    match connect s e with
    | (Except.ok _, s2) => (publishWithConfirm s2 e, s2)
    | (Except.error c, s2) => (Except.error (PubError.reconnectFailed c), s2)

/-- The retry loop of `Publish`. `fuel` is the number of remaining
iterations (the top-level call passes `maxRetries.toNat`, so iterations run
for attempt = 1 .. maxRetries). The second component of the result records,
in order, each completed backoff wait as (attempt, delay); a wait interrupted
by `ctx.Done()` returns `ctx.Err()` immediately and records nothing. The
third component is the final publisher state. Both failure branches of the
source (reconnect failure and publish failure) share the same backoff block,
which is transcribed here once. -/
def publishLoop (cfg : PublisherCfg) (envs : Nat → AttemptEnv) :
    Nat → Nat → Option PubError → PubState →
    PublishResult × List (Nat × Int) × PubState
  | 0, _, lastErr, s => (PublishResult.aggregate cfg.maxRetries lastErr, [], s)
  | fuel + 1, attempt, _, s =>
    let e := envs attempt
    match attemptStep s e with
    | (Except.ok _, s2) => (PublishResult.success, [], s2)
    | (Except.error err, s2) =>
      if (attempt : Int) < cfg.maxRetries then
        if e.ctxDoneAtBackoff then (PublishResult.ctxCancelled, [], s2)
        else
          let d := backoffDelay cfg.retryBaseDelay attempt
          let r := publishLoop cfg envs fuel (attempt + 1) (some err) s2
          (r.1, (attempt, d) :: r.2.1, r.2.2)
      else
        publishLoop cfg envs fuel (attempt + 1) (some err) s2

/-- Publish: marshal the message (failure is returned immediately, before
any attempt), then run the retry loop from attempt 1 with `lastErr = nil`. -/
def Publish (cfg : PublisherCfg) (envs : Nat → AttemptEnv) (marshalOk : Bool)
    (s : PubState) : PublishResult × List (Nat × Int) × PubState :=
  if marshalOk then publishLoop cfg envs cfg.maxRetries.toNat 1 none s
  else (PublishResult.marshalError, [], s)

/-- The two close operations `Close` can perform. -/
inductive CloseAct
  | closeChannel
  | closeConn
deriving DecidableEq, Repr

/-- Oracle for the results of the two underlying Close calls. -/
structure CloseEnv where
  channelCloseErr : Bool
  connCloseErr : Bool
deriving DecidableEq, Repr

/-- Close: if the channel is non-nil, close it (an error is only logged) and
set the field to nil; then, if the connection is non-nil, close it — on error
return that error with the `conn` field left set, otherwise set it to nil and
return success. The third component lists the close operations performed, in
order. -/
def Close (s : PubState) (e : CloseEnv) :
    Except Unit Unit × PubState × List CloseAct :=
  let step1 : List CloseAct × PubState :=
    match s.channel with
    | some _ => ([CloseAct.closeChannel], { s with channel := none })
    | none => ([], s)
  match step1.2.conn with
  | some _ =>
    if e.connCloseErr then
      (Except.error (), step1.2, step1.1 ++ [CloseAct.closeConn])
    else
      (Except.ok (), { step1.2 with conn := none }, step1.1 ++ [CloseAct.closeConn])
  | none => (Except.ok (), step1.2, step1.1)

/-! Lock discipline. Each method of `Publisher` that touches the mutex is
transcribed as the ordered list of its mutex operations, network calls,
blocking waits and local steps, so that "the lock is never held across
network I/O or confirmation waits" becomes a decidable property of the
transcription. -/

/-- One step in a method's operation order: mutex acquire/release, a network
call, a blocking wait, or a local (in-memory) step. -/
inductive LockOp
  | acq
  | rel
  | netCall
  | waitCall
  | localStep
deriving DecidableEq, Repr

/-- True iff some network call or blocking wait occurs while the mutex is
held. The Boolean argument is whether the mutex is held before the list. -/
def ioUnderLock : List LockOp → Bool → Bool
  | [], _ => false
  | op :: rest, held =>
    match op with
    | LockOp.acq => ioUnderLock rest true
    | LockOp.rel => ioUnderLock rest false
    | LockOp.netCall => held || ioUnderLock rest held
    | LockOp.waitCall => held || ioUnderLock rest held
    | LockOp.localStep => ioUnderLock rest held

/-- Operation order of `connect` on its success path: the mutex is acquired
on entry and (by defer) released on return; the teardown closes (performed
when the corresponding handle is non-nil), `amqp.Dial`, `conn.Channel()`,
`channel.Confirm` and `NotifyPublish` all run in between. -/
def connectOps (hasChannel hasConn : Bool) : List LockOp :=
  [LockOp.acq]
    ++ (if hasChannel then [LockOp.netCall] else [])
    ++ (if hasConn then [LockOp.netCall] else [])
    ++ [LockOp.netCall,    -- amqp.Dial
        LockOp.netCall,    -- conn.Channel()
        LockOp.netCall,    -- channel.Confirm(false)
        LockOp.localStep,  -- NotifyPublish(make(chan ..., 1))
        LockOp.localStep,  -- install conn, channel, confirms
        LockOp.rel]

/-- Operation order of `isHealthy`: only field reads under the lock. -/
def isHealthyOps : List LockOp :=
  [LockOp.acq, LockOp.localStep, LockOp.localStep, LockOp.rel]

/-- Operation order of `publishWithConfirm`: snapshot the channel and
confirms fields under the lock, then, outside the lock, submit via
`PublishWithContext` and block on the confirmation select. -/
def publishWithConfirmOps : List LockOp :=
  [LockOp.acq, LockOp.localStep, LockOp.localStep, LockOp.rel,
   LockOp.netCall,   -- channel.PublishWithContext
   LockOp.waitCall]  -- select on confirms / ctx.Done() / timeout

/-- Operation order of `Close`: both underlying Close calls run with the
mutex held (performed when the corresponding handle is non-nil). -/
def closeOps (hasChannel hasConn : Bool) : List LockOp :=
  [LockOp.acq]
    ++ (if hasChannel then [LockOp.netCall, LockOp.localStep] else [])
    ++ (if hasConn then [LockOp.netCall, LockOp.localStep] else [])
    ++ [LockOp.rel]

/-! Client fingerprint (`tools/fingerprint.Generate`): the hex-encoded
SHA-256 digest of the concatenation of the IP address and the User-Agent
(`fmt.Sprintf` with format "%s%s" is string concatenation). SHA-256 is
implemented below over `Nat` with explicit reduction mod 2^32 (FIPS 180-4,
as computed by Go's crypto/sha256). -/

/-- Rotate a 32-bit word right by n bits. -/
def rotr (n x : Nat) : Nat := (x >>> n ||| x <<< (32 - n)) % 4294967296

/-- Logical right shift. -/
def shr (n x : Nat) : Nat := x >>> n

/-- 32-bit bitwise complement. -/
def bnot32 (x : Nat) : Nat := x ^^^ 4294967295

/-- Ch(x, y, z) = (x AND y) XOR ((NOT x) AND z). -/
def chFn (x y z : Nat) : Nat := (x &&& y) ^^^ (bnot32 x &&& z)

/-- Maj(x, y, z) = (x AND y) XOR (x AND z) XOR (y AND z). -/
def majFn (x y z : Nat) : Nat := (x &&& y) ^^^ (x &&& z) ^^^ (y &&& z)

/-- Upper-case sigma-0 of FIPS 180-4. -/
def capSig0 (x : Nat) : Nat := rotr 2 x ^^^ rotr 13 x ^^^ rotr 22 x

/-- Upper-case sigma-1 of FIPS 180-4. -/
def capSig1 (x : Nat) : Nat := rotr 6 x ^^^ rotr 11 x ^^^ rotr 25 x

/-- Lower-case sigma-0 of FIPS 180-4. -/
def lowSig0 (x : Nat) : Nat := rotr 7 x ^^^ rotr 18 x ^^^ shr 3 x

/-- Lower-case sigma-1 of FIPS 180-4. -/
def lowSig1 (x : Nat) : Nat := rotr 17 x ^^^ rotr 19 x ^^^ shr 10 x

/-- The 64 SHA-256 round constants of FIPS 180-4 (written in decimal). -/
def kConsts : Array Nat :=
  #[1116352408, 1899447441, 3049323471, 3921009573, 961987163,
    1508970993, 2453635748, 2870763221, 3624381080, 310598401,
    607225278, 1426881987, 1925078388, 2162078206, 2614888103,
    3248222580, 3835390401, 4022224774, 264347078, 604807628,
    770255983, 1249150122, 1555081692, 1996064986, 2554220882,
    2821834349, 2952996808, 3210313671, 3336571891, 3584528711,
    113926993, 338241895, 666307205, 773529912, 1294757372,
    1396182291, 1695183700, 1986661051, 2177026350, 2456956037,
    2730485921, 2820302411, 3259730800, 3345764771, 3516065817,
    3600352804, 4094571909, 275423344, 430227734, 506948616,
    659060556, 883997877, 958139571, 1322822218, 1537002063,
    1747873779, 1955562222, 2024104815, 2227730452, 2361852424,
    2428436474, 2756734187, 3204031479, 3329325298]

/-- The SHA-256 initial hash value of FIPS 180-4 (written in decimal). -/
def hInit : Array Nat :=
  #[1779033703, 3144134277, 1013904242, 2773480762,
    1359893119, 2600822924, 528734635, 1541459225]

/-- Big-endian byte decomposition of n into k bytes. -/
def beBytes : Nat → Nat → List Nat
  | 0, _ => []
  | k + 1, n => beBytes k (n / 256) ++ [n % 256]

/-- SHA-256 padding: append 0x80, then zeros until the length is 56 mod 64,
then the bit length as 8 big-endian bytes. -/
def padMsg (msg : List Nat) : List Nat :=
  msg ++ [128]
    ++ List.replicate ((64 - (msg.length + 9) % 64) % 64) 0
    ++ beBytes 8 (msg.length * 8)

/-- Group bytes into big-endian 32-bit words. -/
def toWords : List Nat → List Nat
  | b0 :: b1 :: b2 :: b3 :: rest =>
    (((b0 * 256 + b1) * 256 + b2) * 256 + b3) :: toWords rest
  | _ => []

/-- Extend the 16 words of a block to the 64-entry message schedule. -/
def extendW (w : Array Nat) : Array Nat :=
  if w.size < 64 then
    let g := fun (i : Nat) => (w.get? (w.size - i)).getD 0
    extendW (w.push ((lowSig1 (g 2) + g 7 + lowSig0 (g 15) + g 16) % 4294967296))
  else w
termination_by 64 - w.size

/-- One compression round: rotate the working variables. -/
def roundStep (st : Array Nat) (kw : Nat) : Array Nat :=
  let g := fun (i : Nat) => (st.get? i).getD 0
  let t1 := (g 7 + capSig1 (g 4) + chFn (g 4) (g 5) (g 6) + kw) % 4294967296
  let t2 := (capSig0 (g 0) + majFn (g 0) (g 1) (g 2)) % 4294967296
  #[(t1 + t2) % 4294967296, g 0, g 1, g 2, (g 3 + t1) % 4294967296, g 4, g 5, g 6]

/-- Compress one 64-byte block into the running hash value. -/
def blockCompress (hv : Array Nat) (block : List Nat) : Array Nat :=
  let w := extendW (toWords block).toArray
  let final := (List.range 64).foldl
    (fun st i => roundStep st (((kConsts.get? i).getD 0 + (w.get? i).getD 0) % 4294967296))
    hv
  (Array.range 8).map
    (fun i => (((hv.get? i).getD 0 + (final.get? i).getD 0) % 4294967296))

/-- Split a byte list into 64-byte chunks. -/
def chunks64 : List Nat → List (List Nat)
  | [] => []
  | b :: rest => ((b :: rest).take 64) :: chunks64 ((b :: rest).drop 64)
termination_by l => l.length
decreasing_by simp [List.drop]; omega

/-- SHA-256 digest of a byte sequence, as eight 32-bit words. -/
def sha256Words (msg : List Nat) : Array Nat :=
  (chunks64 (padMsg msg)).foldl blockCompress hInit

/-- Lower-case hex digit. -/
def hexChar (n : Nat) : Char :=
  if n < 10 then Char.ofNat (48 + n) else Char.ofNat (87 + n)

/-- Eight-digit lower-case hex rendering of a 32-bit word. -/
def wordHex (w : Nat) : List Char :=
  (List.range 8).map (fun i => hexChar (w / 16 ^ (7 - i) % 16))

/-- Hex-encoded SHA-256 of a string's UTF-8 bytes: the composition of
`sha256.Sum256` and `hex.EncodeToString` applied in `Generate`. -/
def sha256Hex (s : String) : String :=
  String.mk ((sha256Words (s.toUTF8.toList.map (fun b => b.toNat))).toList.flatMap wordHex)

/-- Generate creates a client fingerprint from the IP address and User-Agent:
the hex-encoded SHA-256 of their concatenation. -/
def Generate (ipAddress userAgent : String) : String :=
  sha256Hex (ipAddress ++ userAgent)

/-! Scenario predicates on a single attempt's oracle, and observation
helpers for stating properties of the retry loop. -/

/-- Every external interaction of the attempt succeeds: dial, channel open,
confirm mode, submission, and a positive broker ack. Such an attempt
succeeds from any publisher state. -/
def envAllOk (e : AttemptEnv) : Prop :=
  e.dialOk = true ∧ e.channelOpenOk = true ∧ e.confirmModeOk = true ∧
    e.submitOk = true ∧ e.confirm = ConfirmOutcome.ack true

/-- The attempt is forced to fail from any publisher state: if the attempt
reaches the confirmation race it fails there (submission failure, nack,
timeout or cancellation); if it instead needs a reconnect that fails, it
fails with the reconnect error. -/
def envForcedFail (e : AttemptEnv) : Prop :=
  e.submitOk = false ∨ e.confirm = ConfirmOutcome.ack false ∨
    e.confirm = ConfirmOutcome.timeout ∨ e.confirm = ConfirmOutcome.ctxDone

/-- The attempt fails from any publisher state and never observes a context
cancellation, neither in the confirmation race nor in the backoff select. -/
def envFailsQuiet (e : AttemptEnv) : Prop :=
  e.ctxDoneAtBackoff = false ∧ e.confirm ≠ ConfirmOutcome.ctxDone ∧ envForcedFail e

/-- The attempt fails from any publisher state with one of the transient
errors of the spec — a connection failure (when a needed reconnect fails),
a broker nack, or a confirmation timeout — and no cancellation occurs. -/
def envTransient (e : AttemptEnv) : Prop :=
  e.ctxDoneAtBackoff = false ∧ e.submitOk = true ∧
    (e.confirm = ConfirmOutcome.ack false ∨ e.confirm = ConfirmOutcome.timeout)

instance (e : AttemptEnv) : Decidable (envAllOk e) := by
  unfold envAllOk; infer_instance

instance (e : AttemptEnv) : Decidable (envForcedFail e) := by
  unfold envForcedFail; infer_instance

instance (e : AttemptEnv) : Decidable (envFailsQuiet e) := by
  unfold envFailsQuiet envForcedFail; infer_instance

instance (e : AttemptEnv) : Decidable (envTransient e) := by
  unfold envTransient; infer_instance

/-- Publisher state after running attempts `attempt .. attempt + j - 1`
(j successive iterations of the loop body) from state s. -/
def iterFrom (envs : Nat → AttemptEnv) (attempt : Nat) (s : PubState) : Nat → PubState
  | 0 => s
  | j + 1 => (attemptStep (iterFrom envs attempt s j) (envs (attempt + j))).2

/-- The error an attempt produces from a given state, if it fails. -/
def stepErrOf (s : PubState) (e : AttemptEnv) : Option PubError :=
  match (attemptStep s e).1 with
  | Except.error er => some er
  | Except.ok _ => none

/-- The publisher state established by a successful connect. -/
def freshState : PubState :=
  { conn := some { isClosed := false }, channel := some (), confirms := some () }
/-! Concrete fixtures used by witnesses and counterexamples. -/

/-- The spec's default configuration: maxRetries 3, base delay 100 ms,
confirmation timeout 5 s (Duration values in nanoseconds). -/
def cfgDefault : PublisherCfg :=
  { maxRetries := 3, retryBaseDelay := 100000000, publishConfirmTimeout := 5000000000 }

/-- Default configuration with a single attempt. -/
def cfgOne : PublisherCfg := { cfgDefault with maxRetries := 1 }

/-- Default configuration with a negative retry budget. -/
def cfgNeg : PublisherCfg := { cfgDefault with maxRetries := -1 }

/-- Default configuration with a very large (but valid, positive int64)
base delay of 5·10^18 ns. -/
def cfgWide : PublisherCfg := { cfgDefault with retryBaseDelay := 5000000000000000000 }

/-- Every external interaction succeeds; the broker acks positively. -/
def allOkEnv : AttemptEnv :=
  { dialOk := true, channelOpenOk := true, confirmModeOk := true,
    submitOk := true, confirm := ConfirmOutcome.ack true, ctxDoneAtBackoff := false }

/-- The broker nacks the publish; everything else succeeds. -/
def nackEnv : AttemptEnv := { allOkEnv with confirm := ConfirmOutcome.ack false }

/-- The caller's context is cancelled during the confirmation wait (and, being
cancelled, its Done channel is also ready at the backoff select). -/
def cancelConfirmEnv : AttemptEnv :=
  { allOkEnv with confirm := ConfirmOutcome.ctxDone, ctxDoneAtBackoff := true }

/-- Both underlying Close calls succeed. -/
def quietCloseEnv : CloseEnv := { channelCloseErr := false, connCloseErr := false }

/-- Publisher state after a successful Close of a fresh publisher. -/
def drainedState : PubState := { conn := none, channel := none, confirms := some () }

/-- Sample IP address; together with the pairs below it exhibits two distinct
(IP, User-Agent) pairs with the same concatenation. -/
def ipSampleA : String := "10.0.0.12"

/-- Sample User-Agent paired with ipSampleA. -/
def uaSampleA : String := "3 Mozilla"

/-- A different sample IP address with the same concatenation. -/
def ipSampleB : String := "10.0.0.123"

/-- Sample User-Agent paired with ipSampleB. -/
def uaSampleB : String := " Mozilla"


theorem isHealthy_channel (s : PubState) (h : isHealthy s = true) :
    s.channel = some () := by
  rcases s with ⟨conn, channel, confirms⟩
  cases conn with
  | none => simp [isHealthy] at h
  | some c =>
    cases channel with
    | none => simp [isHealthy] at h
    | some u => rfl

theorem connect_ok (s : PubState) (e : AttemptEnv) (h1 : e.dialOk = true)
    (h2 : e.channelOpenOk = true) (h3 : e.confirmModeOk = true) :
    connect s e = (Except.ok (), freshState) := by
  simp [connect, h1, h2, h3, freshState]

theorem pwc_fails (s : PubState) (e : AttemptEnv) (hch : s.channel = some ())
    (hf : envForcedFail e) :
    ∃ er, publishWithConfirm s e = Except.error er := by
  unfold publishWithConfirm
  rw [hch]
  cases hs : e.submitOk with
  | false => exact ⟨PubError.publishFailed, by simp [hs]⟩
  | true =>
    rcases hf with h | h | h | h
    · simp [h] at hs
    · exact ⟨PubError.nack, by simp [hs, h]⟩
    · exact ⟨PubError.confirmTimeout, by simp [hs, h]⟩
    · exact ⟨PubError.cancelled, by simp [hs, h]⟩

theorem attemptStep_ok (s : PubState) (e : AttemptEnv) (h : envAllOk e) :
    (attemptStep s e).1 = Except.ok () := by
  obtain ⟨h1, h2, h3, h4, h5⟩ := h
  unfold attemptStep
  by_cases hh : isHealthy s
  · simp [hh, publishWithConfirm, isHealthy_channel s hh, h4, h5]
  · simp [hh, connect_ok s e h1 h2 h3, publishWithConfirm, freshState, h4, h5]

theorem attemptStep_fails (s : PubState) (e : AttemptEnv) (hf : envForcedFail e) :
    ∃ er, (attemptStep s e).1 = Except.error er := by
  unfold attemptStep
  by_cases hh : isHealthy s
  · obtain ⟨er, her⟩ := pwc_fails s e (isHealthy_channel s hh) hf
    exact ⟨er, by simp [hh, her]⟩
  · cases h1 : e.dialOk with
    | false =>
      exact ⟨PubError.reconnectFailed ConnectFailure.dialFailed,
        by simp [hh, connect, h1]⟩
    | true =>
      cases h2 : e.channelOpenOk with
      | false =>
        exact ⟨PubError.reconnectFailed ConnectFailure.channelOpenFailed,
          by simp [hh, connect, h1, h2]⟩
      | true =>
        cases h3 : e.confirmModeOk with
        | false =>
          exact ⟨PubError.reconnectFailed ConnectFailure.confirmModeFailed,
            by simp [hh, connect, h1, h2, h3]⟩
        | true =>
          obtain ⟨er, her⟩ := pwc_fails freshState e rfl hf
          exact ⟨er, by simp [hh, connect_ok s e h1 h2 h3, her]⟩

theorem attemptStep_cancel (s : PubState) (e : AttemptEnv) (h1 : e.dialOk = true)
    (h2 : e.channelOpenOk = true) (h3 : e.confirmModeOk = true)
    (h4 : e.submitOk = true) (h5 : e.confirm = ConfirmOutcome.ctxDone) :
    (attemptStep s e).1 = Except.error PubError.cancelled := by
  unfold attemptStep
  by_cases hh : isHealthy s
  · simp [hh, publishWithConfirm, isHealthy_channel s hh, h4, h5]
  · simp [hh, connect_ok s e h1 h2 h3, publishWithConfirm, freshState, h4, h5]

theorem envTransient_forced (e : AttemptEnv) (h : envTransient e) : envForcedFail e := by
  rcases h with ⟨_, _, h | h⟩
  · exact Or.inr (Or.inl h)
  · exact Or.inr (Or.inr (Or.inl h))

theorem envTransient_quiet (e : AttemptEnv) (h : envTransient e) : envFailsQuiet e := by
  refine ⟨h.1, ?_, envTransient_forced e h⟩
  rcases h with ⟨_, _, h | h⟩ <;> simp [h]


theorem iterFrom_shift (envs : Nat → AttemptEnv) (attempt : Nat) (s : PubState) :
    ∀ j, iterFrom envs attempt s (j + 1) =
      iterFrom envs (attempt + 1) ((attemptStep s (envs attempt)).2) j := by
  intro j
  induction j with
  | zero => simp [iterFrom]
  | succ j ih =>
    show (attemptStep (iterFrom envs attempt s (j + 1)) (envs (attempt + (j + 1)))).2 = _
    rw [ih, show attempt + (j + 1) = attempt + 1 + j by omega]
    rfl

theorem publishLoop_step_ok (cfg : PublisherCfg) (envs : Nat → AttemptEnv)
    (f attempt : Nat) (le : Option PubError) (s s2 : PubState)
    (hp : attemptStep s (envs attempt) = (Except.ok (), s2)) :
    publishLoop cfg envs (f + 1) attempt le s = (PublishResult.success, [], s2) := by
  conv_lhs => rw [publishLoop]
  rw [hp]

theorem publishLoop_step_last (cfg : PublisherCfg) (envs : Nat → AttemptEnv)
    (f attempt : Nat) (le : Option PubError) (s s2 : PubState) (er : PubError)
    (hp : attemptStep s (envs attempt) = (Except.error er, s2))
    (hge : ¬ ((attempt : Int) < cfg.maxRetries)) :
    publishLoop cfg envs (f + 1) attempt le s =
      publishLoop cfg envs f (attempt + 1) (some er) s2 := by
  conv_lhs => rw [publishLoop]
  rw [hp]
  simp [hge]

theorem publishLoop_step_cancel (cfg : PublisherCfg) (envs : Nat → AttemptEnv)
    (f attempt : Nat) (le : Option PubError) (s s2 : PubState) (er : PubError)
    (hp : attemptStep s (envs attempt) = (Except.error er, s2))
    (hlt : (attempt : Int) < cfg.maxRetries)
    (hcb : (envs attempt).ctxDoneAtBackoff = true) :
    publishLoop cfg envs (f + 1) attempt le s = (PublishResult.ctxCancelled, [], s2) := by
  conv_lhs => rw [publishLoop]
  rw [hp]
  simp [hlt, hcb]

theorem publishLoop_step_cons (cfg : PublisherCfg) (envs : Nat → AttemptEnv)
    (f attempt : Nat) (le : Option PubError) (s s2 : PubState) (er : PubError)
    (hp : attemptStep s (envs attempt) = (Except.error er, s2))
    (hlt : (attempt : Int) < cfg.maxRetries)
    (hcb : (envs attempt).ctxDoneAtBackoff = false) :
    publishLoop cfg envs (f + 1) attempt le s =
      ((publishLoop cfg envs f (attempt + 1) (some er) s2).1,
       (attempt, backoffDelay cfg.retryBaseDelay attempt) ::
         (publishLoop cfg envs f (attempt + 1) (some er) s2).2.1,
       (publishLoop cfg envs f (attempt + 1) (some er) s2).2.2) := by
  conv_lhs => rw [publishLoop]
  rw [hp]
  simp [hlt, hcb]


theorem range_map_cons {A : Type} (g : Nat → A) (a n : Nat) :
    g a :: (List.range n).map (fun i => g (a + 1 + i)) =
      (List.range (n + 1)).map (fun i => g (a + i)) := by
  rw [List.range_succ_eq_map, List.map_cons, List.map_map]
  refine congrArg₂ _ (by simp) ?_
  refine List.map_congr_left ?_
  intro i _
  have h : a + (i + 1) = a + 1 + i := by omega
  simp [Function.comp, h]

theorem publishLoop_skip (cfg : PublisherCfg) (envs : Nat → AttemptEnv) :
    ∀ (j fuel attempt : Nat) (le : Option PubError) (s : PubState),
      j ≤ fuel →
      (∀ i, attempt ≤ i → i < attempt + j → envFailsQuiet (envs i)) →
      ∃ le2, (publishLoop cfg envs fuel attempt le s).1 =
        (publishLoop cfg envs (fuel - j) (attempt + j) le2 (iterFrom envs attempt s j)).1 := by
  intro j
  induction j with
  | zero => intro fuel attempt le s hj hq; exact ⟨le, by simp [iterFrom]⟩
  | succ j ih =>
    intro fuel attempt le s hj hq
    cases fuel with
    | zero => omega
    | succ f =>
      have hq0 : envFailsQuiet (envs attempt) := hq attempt (le_refl attempt) (by omega)
      obtain ⟨er, her⟩ := attemptStep_fails s (envs attempt) hq0.2.2
      rcases hp : attemptStep s (envs attempt) with ⟨r, s2⟩
      have hr : r = Except.error er := by rw [hp] at her; exact her
      subst hr
      have h1 : (publishLoop cfg envs (f + 1) attempt le s).1 =
          (publishLoop cfg envs f (attempt + 1) (some er) s2).1 := by
        by_cases hlt : (attempt : Int) < cfg.maxRetries
        · rw [publishLoop_step_cons cfg envs f attempt le s s2 er hp hlt hq0.1]
        · rw [publishLoop_step_last cfg envs f attempt le s s2 er hp hlt]
      obtain ⟨le2, h2⟩ := ih f (attempt + 1) (some er) s2 (by omega)
        (fun i hi1 hi2 => hq i (by omega) (by omega))
      refine ⟨le2, ?_⟩
      rw [h1, h2]
      have hfj : f + 1 - (j + 1) = f - j := by omega
      have haj : attempt + (j + 1) = attempt + 1 + j := by omega
      have hit : iterFrom envs attempt s (j + 1) = iterFrom envs (attempt + 1) s2 j := by
        rw [iterFrom_shift, hp]
      rw [hfj, haj, hit]

theorem publishLoop_allfail (cfg : PublisherCfg) (envs : Nat → AttemptEnv)
    (hq : ∀ i, envFailsQuiet (envs i)) :
    ∀ (fuel attempt : Nat) (le : Option PubError) (s : PubState),
      1 ≤ fuel → (attempt : Int) + fuel = cfg.maxRetries + 1 →
      (stepErrOf (iterFrom envs attempt s (fuel - 1)) (envs (attempt + (fuel - 1)))).isSome
          = true ∧
      publishLoop cfg envs fuel attempt le s =
        (PublishResult.aggregate cfg.maxRetries
          (stepErrOf (iterFrom envs attempt s (fuel - 1)) (envs (attempt + (fuel - 1)))),
         (List.range (fuel - 1)).map
           (fun i => (attempt + i, backoffDelay cfg.retryBaseDelay (attempt + i))),
         iterFrom envs attempt s fuel) := by
  intro fuel
  induction fuel with
  | zero => intro attempt le s h1 hinv; omega
  | succ f ih =>
    intro attempt le s h1 hinv
    obtain ⟨er, her⟩ := attemptStep_fails s (envs attempt) (hq attempt).2.2
    rcases hp : attemptStep s (envs attempt) with ⟨r, s2⟩
    have hr : r = Except.error er := by rw [hp] at her; exact her
    subst hr
    cases f with
    | zero =>
      have hge : ¬ ((attempt : Int) < cfg.maxRetries) := by omega
      constructor
      · simp [iterFrom, stepErrOf, hp]
      · rw [publishLoop_step_last cfg envs 0 attempt le s s2 er hp hge]
        simp [publishLoop, stepErrOf, iterFrom, hp]
    | succ f2 =>
      have hlt : (attempt : Int) < cfg.maxRetries := by
        push_cast at hinv
        omega
      have hcb : (envs attempt).ctxDoneAtBackoff = false := (hq attempt).1
      obtain ⟨ihsome, ihres⟩ := ih (attempt + 1) (some er) s2 (by omega)
        (by push_cast at hinv ⊢; omega)
      have hit : ∀ m, iterFrom envs attempt s (m + 1) = iterFrom envs (attempt + 1) s2 m :=
        fun m => by rw [iterFrom_shift, hp]
      constructor
      · show (stepErrOf (iterFrom envs attempt s (f2 + 2 - 1))
            (envs (attempt + (f2 + 2 - 1)))).isSome = true
        rw [show f2 + 2 - 1 = f2 + 1 by omega, hit f2,
          show attempt + (f2 + 1) = attempt + 1 + f2 by omega]
        simpa using ihsome
      · rw [publishLoop_step_cons cfg envs (f2 + 1) attempt le s s2 er hp hlt hcb, ihres]
        refine congrArg₂ _ ?_ (congrArg₂ _ ?_ ?_)
        · show PublishResult.aggregate cfg.maxRetries
              (stepErrOf (iterFrom envs (attempt + 1) s2 (f2 + 1 - 1))
                (envs (attempt + 1 + (f2 + 1 - 1))))
            = PublishResult.aggregate cfg.maxRetries
              (stepErrOf (iterFrom envs attempt s (f2 + 2 - 1)) (envs (attempt + (f2 + 2 - 1))))
          rw [show f2 + 2 - 1 = f2 + 1 by omega, hit f2,
            show attempt + (f2 + 1) = attempt + 1 + f2 by omega,
            show f2 + 1 - 1 = f2 by omega]
        · show (attempt, backoffDelay cfg.retryBaseDelay attempt) ::
              (List.range (f2 + 1 - 1)).map
                (fun i => (attempt + 1 + i, backoffDelay cfg.retryBaseDelay (attempt + 1 + i)))
              = (List.range (f2 + 2 - 1)).map
                (fun i => (attempt + i, backoffDelay cfg.retryBaseDelay (attempt + i)))
          rw [show f2 + 1 - 1 = f2 by omega, show f2 + 2 - 1 = f2 + 1 by omega]
          simpa using range_map_cons
            (fun m => (m, backoffDelay cfg.retryBaseDelay m)) attempt f2
        · show iterFrom envs (attempt + 1) s2 (f2 + 1) = iterFrom envs attempt s (f2 + 2)
          rw [show f2 + 2 = (f2 + 1) + 1 from rfl, hit (f2 + 1)]


theorem toInt64_id (x : Int) (h1 : -9223372036854775808 ≤ x)
    (h2 : x < 9223372036854775808) : toInt64 x = x := by
  unfold toInt64
  omega

theorem shl1_eq (k : Nat) (hk : k ≤ 62) : shl1 k = 2 ^ k := by
  unfold shl1
  apply toInt64_id
  · have h0 : (0 : Int) ≤ 2 ^ k := by positivity
    omega
  · have hle : (2 : Int) ^ k ≤ 2 ^ 62 := pow_le_pow_right₀ (by norm_num) hk
    have : (2 : Int) ^ 62 < 9223372036854775808 := by norm_num
    omega

theorem backoffDelay_eq (b : Int) (k : Nat) (hb : 0 ≤ b)
    (h : b * 2 ^ (k - 1) < 9223372036854775808) :
    backoffDelay b k = b * 2 ^ (k - 1) := by
  unfold backoffDelay
  rcases eq_or_lt_of_le hb with hb0 | hb1
  · rw [← hb0]
    show toInt64 (0 * shl1 (k - 1)) = 0 * 2 ^ (k - 1)
    rw [zero_mul, zero_mul]
    unfold toInt64
    omega
  · have hk : k - 1 ≤ 62 := by
      by_contra hgt
      push_neg at hgt
      have hp1 : (2 : Int) ^ 63 ≤ 2 ^ (k - 1) := pow_le_pow_right₀ (by norm_num) (by omega)
      have hp2 : (2 : Int) ^ (k - 1) ≤ b * 2 ^ (k - 1) :=
        le_mul_of_one_le_left (by positivity) (by omega)
      have hp3 : (2 : Int) ^ 63 = 9223372036854775808 := by norm_num
      omega
    rw [shl1_eq (k - 1) hk]
    apply toInt64_id
    · have h0 : (0 : Int) ≤ b * 2 ^ (k - 1) := mul_nonneg hb (by positivity)
      omega
    · exact h

/-! Claim theorems. -/

/-- C1: for maxRetries = N ≥ 1, if every attempt before some attempt m ≤ N
fails with a transient error (a connection failure when a reconnect is
needed, a broker nack, or a confirmation timeout) and no cancellation
occurs, and attempt m succeeds, then Publish returns success. -/
theorem publish_eventual_success (cfg : PublisherCfg) (envs : Nat → AttemptEnv)
    (s : PubState) (m : Nat) (hm1 : 1 ≤ m) (hmN : (m : Int) ≤ cfg.maxRetries)
    (hfail : ∀ j, 1 ≤ j → j < m → envTransient (envs j))
    (hsucc : envAllOk (envs m)) :
    (Publish cfg envs true s).1 = PublishResult.success := by
  unfold Publish
  rw [if_pos rfl]
  obtain ⟨le2, hskip⟩ := publishLoop_skip cfg envs (m - 1) cfg.maxRetries.toNat 1 none s
    (by omega) (fun i hi1 hi2 => envTransient_quiet _ (hfail i hi1 (by omega)))
  rw [hskip, show 1 + (m - 1) = m by omega]
  obtain ⟨f, hf⟩ : ∃ f, cfg.maxRetries.toNat - (m - 1) = f + 1 :=
    ⟨cfg.maxRetries.toNat - (m - 1) - 1, by omega⟩
  rw [hf]
  rcases hp : attemptStep (iterFrom envs 1 s (m - 1)) (envs m) with ⟨r, s2⟩
  have hr : r = Except.ok () := by
    have h := attemptStep_ok (iterFrom envs 1 s (m - 1)) (envs m) hsucc
    rw [hp] at h
    exact h
  subst hr
  rw [publishLoop_step_ok cfg envs f m le2 _ s2 hp]

theorem publish_eventual_success_witness :
    (Publish cfgDefault (fun a => if a ≤ 2 then nackEnv else allOkEnv) true freshState).1
      = PublishResult.success :=
  publish_eventual_success cfgDefault (fun a => if a ≤ 2 then nackEnv else allOkEnv)
    freshState 3 (by decide) (by decide)
    (fun j h1 h2 => by
      have hj : j = 1 ∨ j = 2 := by omega
      rcases hj with h | h <;> subst h <;> decide)
    (by decide)

/-- C2: for maxRetries = N ≥ 1, if every attempt fails and the context is
never cancelled, Publish returns the aggregate error carrying exactly
`p.maxRetries` as its attempt count and wrapping the error of the final
(most recent) attempt; no bare attempt error is returned. -/
theorem publish_exhaustion (cfg : PublisherCfg) (envs : Nat → AttemptEnv) (s : PubState)
    (hN : 1 ≤ cfg.maxRetries) (hq : ∀ i, envFailsQuiet (envs i)) :
    (stepErrOf (iterFrom envs 1 s (cfg.maxRetries.toNat - 1))
        (envs cfg.maxRetries.toNat)).isSome = true ∧
    (Publish cfg envs true s).1 = PublishResult.aggregate cfg.maxRetries
      (stepErrOf (iterFrom envs 1 s (cfg.maxRetries.toNat - 1))
        (envs cfg.maxRetries.toNat)) := by
  obtain ⟨hsome, hres⟩ := publishLoop_allfail cfg envs hq cfg.maxRetries.toNat 1 none s
    (by omega) (by push_cast; omega)
  have hidx : 1 + (cfg.maxRetries.toNat - 1) = cfg.maxRetries.toNat := by omega
  rw [hidx] at hsome hres
  refine ⟨hsome, ?_⟩
  unfold Publish
  rw [if_pos rfl, hres]

theorem publish_exhaustion_witness :
    (stepErrOf (iterFrom (fun _ => nackEnv) 1 freshState 2) nackEnv).isSome = true ∧
    (Publish cfgDefault (fun _ => nackEnv) true freshState).1
      = PublishResult.aggregate 3
        (stepErrOf (iterFrom (fun _ => nackEnv) 1 freshState 2) nackEnv) :=
  publish_exhaustion cfgDefault (fun _ => nackEnv) freshState (by decide)
    (fun _ => (by decide : envFailsQuiet nackEnv))


/-- C3 (amended): in a run where every attempt fails without cancellation,
the recorded backoff waits are exactly one per non-final attempt k = 1 ..
maxRetries − 1 (none after the final attempt), and the delay before attempt
k+1 is the int64 value of retryBaseDelay * (1 << (k−1)); that value equals
retryBaseDelay * 2^(k−1) exactly whenever 0 ≤ retryBaseDelay and the product
is below 2^63 (so the delays are baseDelay, 2×baseDelay, 4×baseDelay, … in
the entire non-overflowing range), but wraps for larger products. -/
theorem publish_backoff_schedule (cfg : PublisherCfg) (envs : Nat → AttemptEnv)
    (s : PubState) (hN : 1 ≤ cfg.maxRetries) (hq : ∀ i, envFailsQuiet (envs i)) :
    (Publish cfg envs true s).2.1 =
      (List.range (cfg.maxRetries.toNat - 1)).map
        (fun i => (1 + i, backoffDelay cfg.retryBaseDelay (1 + i))) ∧
    ∀ (b : Int) (k : Nat), 0 ≤ b → b * 2 ^ (k - 1) < 9223372036854775808 →
      backoffDelay b k = b * 2 ^ (k - 1) := by
  constructor
  · obtain ⟨hsome, hres⟩ := publishLoop_allfail cfg envs hq cfg.maxRetries.toNat 1 none s
      (by omega) (by push_cast; omega)
    unfold Publish
    rw [if_pos rfl, hres]
  · intro b k hb h
    exact backoffDelay_eq b k hb h

theorem publish_backoff_schedule_witness :
    (Publish cfgDefault (fun _ => nackEnv) true freshState).2.1 =
      (List.range 2).map (fun i => (1 + i, backoffDelay 100000000 (1 + i))) ∧
    backoffDelay 100000000 2 = 100000000 * 2 ^ (2 - 1) :=
  ⟨(publish_backoff_schedule cfgDefault (fun _ => nackEnv) freshState (by decide)
      (fun _ => (by decide : envFailsQuiet nackEnv))).1,
   (publish_backoff_schedule cfgDefault (fun _ => nackEnv) freshState (by decide)
      (fun _ => (by decide : envFailsQuiet nackEnv))).2 100000000 2 (by norm_num) (by norm_num)⟩

/-- C3 counterexample: with retryBaseDelay = 5·10^18 ns (a valid positive
Duration) and maxRetries = 3, every attempt nacking, the wait recorded before
attempt 3 is the int64-wrapped −8446744073709551616 ns, not
retryBaseDelay * 2^(2−1) = 10^19 ns as the claim requires for k = 2. -/
theorem publish_backoff_schedule_cex :
    (Publish cfgWide (fun _ => nackEnv) true freshState).2.1 =
      [(1, 5000000000000000000), (2, -8446744073709551616)] ∧
    (5000000000000000000 * 2 ^ (2 - 1) : Int) = 10000000000000000000 ∧
    (10000000000000000000 : Int) ≠ -8446744073709551616 := by
  refine ⟨by decide, by decide, by decide⟩

/-- C4 (amended): if the context is cancelled during attempt k's backoff wait
— or during its confirmation wait with attempts remaining, the context
staying cancelled at the subsequent backoff select — Publish returns the
cancellation error itself, with no further attempt; but when the cancellation
is observed during the final attempt's confirmation wait, Publish instead
returns the aggregate error wrapping the cancellation error (still with no
further attempt). The cancellation error is distinct from the timeout and
nack errors. -/
theorem publish_cancellation (cfg : PublisherCfg) (envs : Nat → AttemptEnv) (s : PubState)
    (k : Nat) (hk : 1 ≤ k)
    (hprev : ∀ j, 1 ≤ j → j < k → envFailsQuiet (envs j)) :
    ((k : Int) < cfg.maxRetries → envForcedFail (envs k) →
      (envs k).ctxDoneAtBackoff = true →
      (Publish cfg envs true s).1 = PublishResult.ctxCancelled) ∧
    ((k : Int) = cfg.maxRetries →
      (envs k).dialOk = true → (envs k).channelOpenOk = true →
      (envs k).confirmModeOk = true → (envs k).submitOk = true →
      (envs k).confirm = ConfirmOutcome.ctxDone →
      (Publish cfg envs true s).1
        = PublishResult.aggregate cfg.maxRetries (some PubError.cancelled)) ∧
    PubError.cancelled ≠ PubError.confirmTimeout ∧ PubError.cancelled ≠ PubError.nack := by
  refine ⟨?_, ?_, by simp, by simp⟩
  · intro hlt hff hcb
    unfold Publish
    rw [if_pos rfl]
    obtain ⟨le2, hskip⟩ := publishLoop_skip cfg envs (k - 1) cfg.maxRetries.toNat 1 none s
      (by omega) (fun i hi1 hi2 => hprev i hi1 (by omega))
    rw [hskip, show 1 + (k - 1) = k by omega]
    obtain ⟨f, hf⟩ : ∃ f, cfg.maxRetries.toNat - (k - 1) = f + 1 :=
      ⟨cfg.maxRetries.toNat - (k - 1) - 1, by omega⟩
    rw [hf]
    obtain ⟨er, her⟩ := attemptStep_fails (iterFrom envs 1 s (k - 1)) (envs k) hff
    rcases hp : attemptStep (iterFrom envs 1 s (k - 1)) (envs k) with ⟨r, s2⟩
    have hr : r = Except.error er := by rw [hp] at her; exact her
    subst hr
    rw [publishLoop_step_cancel cfg envs f k le2 _ s2 er hp hlt hcb]
  · intro hkN h1 h2 h3 h4 h5
    unfold Publish
    rw [if_pos rfl]
    obtain ⟨le2, hskip⟩ := publishLoop_skip cfg envs (k - 1) cfg.maxRetries.toNat 1 none s
      (by omega) (fun i hi1 hi2 => hprev i hi1 (by omega))
    rw [hskip, show 1 + (k - 1) = k by omega]
    have hfuel : cfg.maxRetries.toNat - (k - 1) = 0 + 1 := by omega
    rw [hfuel]
    have hstep := attemptStep_cancel (iterFrom envs 1 s (k - 1)) (envs k) h1 h2 h3 h4 h5
    rcases hp : attemptStep (iterFrom envs 1 s (k - 1)) (envs k) with ⟨r, s2⟩
    have hr : r = Except.error PubError.cancelled := by rw [hp] at hstep; exact hstep
    subst hr
    rw [publishLoop_step_last cfg envs 0 k le2 _ s2 PubError.cancelled hp (by omega)]
    rfl

theorem publish_cancellation_witness :
    (Publish cfgDefault (fun _ => cancelConfirmEnv) true freshState).1
      = PublishResult.ctxCancelled ∧
    (Publish cfgOne (fun _ => cancelConfirmEnv) true freshState).1
      = PublishResult.aggregate 1 (some PubError.cancelled) :=
  ⟨(publish_cancellation cfgDefault (fun _ => cancelConfirmEnv) freshState 1 (by decide)
      (fun j h1 h2 => absurd (Nat.lt_of_lt_of_le h2 h1) (lt_irrefl j))).1
      (by decide) (by decide) (by decide),
   (publish_cancellation cfgOne (fun _ => cancelConfirmEnv) freshState 1 (by decide)
      (fun j h1 h2 => absurd (Nat.lt_of_lt_of_le h2 h1) (lt_irrefl j))).2.1
      (by decide) (by decide) (by decide) (by decide) (by decide) (by decide)⟩

/-- C4 counterexample: with maxRetries = 1 and the context cancelled during
the only attempt's confirmation wait, Publish returns the aggregate error
wrapping the cancellation — not the cancellation error itself. -/
theorem publish_cancellation_cex :
    (Publish cfgOne (fun _ => cancelConfirmEnv) true freshState).1
      = PublishResult.aggregate 1 (some PubError.cancelled) ∧
    PublishResult.aggregate 1 (some PubError.cancelled) ≠ PublishResult.ctxCancelled := by
  refine ⟨by decide, by decide⟩


/-- C5: once the submission step of publishWithConfirm succeeds, the call's
result is exactly determined by which of the three raced events fires: a
positive ack gives success, a negative ack the nack error, context
cancellation the cancellation error, and the confirmation timeout the
timeout error — and the result is always one of these four, nothing else. -/
theorem confirm_race_trichotomy (s : PubState) (e : AttemptEnv)
    (hch : s.channel = some ()) (hsub : e.submitOk = true) :
    (publishWithConfirm s e = Except.ok () ↔ e.confirm = ConfirmOutcome.ack true) ∧
    (publishWithConfirm s e = Except.error PubError.nack ↔
      e.confirm = ConfirmOutcome.ack false) ∧
    (publishWithConfirm s e = Except.error PubError.cancelled ↔
      e.confirm = ConfirmOutcome.ctxDone) ∧
    (publishWithConfirm s e = Except.error PubError.confirmTimeout ↔
      e.confirm = ConfirmOutcome.timeout) ∧
    (publishWithConfirm s e = Except.ok () ∨
     publishWithConfirm s e = Except.error PubError.nack ∨
     publishWithConfirm s e = Except.error PubError.cancelled ∨
     publishWithConfirm s e = Except.error PubError.confirmTimeout) := by
  rcases hc : e.confirm with pos | _ | _
  · cases pos <;> simp [publishWithConfirm, hch, hsub, hc]
  · simp [publishWithConfirm, hch, hsub, hc]
  · simp [publishWithConfirm, hch, hsub, hc]

theorem confirm_race_trichotomy_witness :
    (publishWithConfirm freshState nackEnv = Except.ok () ↔
      nackEnv.confirm = ConfirmOutcome.ack true) ∧
    (publishWithConfirm freshState nackEnv = Except.error PubError.nack ↔
      nackEnv.confirm = ConfirmOutcome.ack false) ∧
    (publishWithConfirm freshState nackEnv = Except.error PubError.cancelled ↔
      nackEnv.confirm = ConfirmOutcome.ctxDone) ∧
    (publishWithConfirm freshState nackEnv = Except.error PubError.confirmTimeout ↔
      nackEnv.confirm = ConfirmOutcome.timeout) ∧
    (publishWithConfirm freshState nackEnv = Except.ok () ∨
     publishWithConfirm freshState nackEnv = Except.error PubError.nack ∨
     publishWithConfirm freshState nackEnv = Except.error PubError.cancelled ∨
     publishWithConfirm freshState nackEnv = Except.error PubError.confirmTimeout) :=
  confirm_race_trichotomy freshState nackEnv rfl rfl

/-- C6: Close is idempotent. On a publisher with a live channel and
connection whose connection close succeeds, the first Close returns success
having closed the channel and then the connection (and nils both fields);
the second Close performs no close operation at all and returns success. -/
theorem close_idempotent (s : PubState) (e1 e2 : CloseEnv)
    (hch : s.channel = some ()) (hco : ∃ c, s.conn = some c)
    (hok : e1.connCloseErr = false) :
    Close s e1 = (Except.ok (),
      { conn := none, channel := none, confirms := s.confirms },
      [CloseAct.closeChannel, CloseAct.closeConn]) ∧
    Close { conn := none, channel := none, confirms := s.confirms } e2 =
      (Except.ok (), { conn := none, channel := none, confirms := s.confirms }, []) := by
  obtain ⟨c, hc⟩ := hco
  rcases s with ⟨conn, channel, cf⟩
  simp only at hch hc
  subst hch
  subst hc
  constructor
  · simp [Close, hok]
  · simp [Close]

theorem close_idempotent_witness :
    Close freshState quietCloseEnv = (Except.ok (), drainedState,
      [CloseAct.closeChannel, CloseAct.closeConn]) ∧
    Close drainedState quietCloseEnv = (Except.ok (), drainedState, []) :=
  close_idempotent freshState quietCloseEnv quietCloseEnv rfl ⟨{ isClosed := false }, rfl⟩ rfl

/-- C7 (amended): after a successful Close, the publisher is unhealthy, and a
subsequent Publish does not fail fast: it attempts a transparent reconnect,
and when the broker is reachable again (and at least one attempt is
configured) the call succeeds. -/
theorem publish_after_close (cfg : PublisherCfg) (envs : Nat → AttemptEnv)
    (s : PubState) (e2 : CloseEnv) (hok : e2.connCloseErr = false)
    (hN : 1 ≤ cfg.maxRetries) :
    isHealthy (Close s e2).2.1 = false ∧
    (envAllOk (envs 1) →
      (Publish cfg envs true (Close s e2).2.1).1 = PublishResult.success) := by
  have hconn : (Close s e2).2.1.conn = none := by
    rcases s with ⟨conn, channel, cf⟩
    cases channel <;> cases conn <;> simp [Close, hok]
  constructor
  · rcases hC : (Close s e2).2.1 with ⟨conn, channel, cf⟩
    rw [hC] at hconn
    simp only at hconn
    subst hconn
    simp [isHealthy]
  · intro hall
    unfold Publish
    rw [if_pos rfl]
    obtain ⟨f, hf⟩ : ∃ f, cfg.maxRetries.toNat = f + 1 :=
      ⟨cfg.maxRetries.toNat - 1, by omega⟩
    rw [hf]
    rcases hp : attemptStep (Close s e2).2.1 (envs 1) with ⟨r, s2⟩
    have hr : r = Except.ok () := by
      have h := attemptStep_ok (Close s e2).2.1 (envs 1) hall
      rw [hp] at h
      exact h
    subst hr
    rw [publishLoop_step_ok cfg envs f 1 none _ s2 hp]

theorem publish_after_close_witness :
    isHealthy (Close freshState quietCloseEnv).2.1 = false ∧
    (Publish cfgDefault (fun _ => allOkEnv) true (Close freshState quietCloseEnv).2.1).1
      = PublishResult.success :=
  ⟨(publish_after_close cfgDefault (fun _ => allOkEnv) freshState quietCloseEnv
      rfl (by decide)).1,
   (publish_after_close cfgDefault (fun _ => allOkEnv) freshState quietCloseEnv
      rfl (by decide)).2 (by decide)⟩

/-- C7 counterexample: a Close that succeeds, followed by a Publish with the
broker reachable: the Publish reconnects and returns success instead of
failing — the close is not latched and the call is silently accepted. -/
theorem publish_after_close_cex :
    (Close freshState quietCloseEnv).1 = Except.ok () ∧
    (Publish cfgDefault (fun _ => allOkEnv) true (Close freshState quietCloseEnv).2.1).1
      = PublishResult.success := by
  refine ⟨rfl, by decide⟩


/-- C8 (amended): publishWithConfirm snapshots the channel and confirmation
channel with the mutex held and performs the submission and the confirmation
wait outside it, and isHealthy performs no I/O under the mutex; but connect
holds the mutex across its entire body — the teardown closes, the broker
dial, the channel open and the confirm-mode enabling all run with the mutex
held (on every path), and Close likewise holds it across its close calls. -/
theorem lock_scope :
    ioUnderLock publishWithConfirmOps false = false ∧
    ioUnderLock isHealthyOps false = false ∧
    ioUnderLock (connectOps false false) false = true ∧
    ioUnderLock (connectOps false true) false = true ∧
    ioUnderLock (connectOps true false) false = true ∧
    ioUnderLock (connectOps true true) false = true ∧
    ioUnderLock (closeOps true true) false = true := by
  decide

/-- C8 counterexample: on the path with no previous handles to tear down, the
first network call of connect is the `amqp.Dial`, and it runs between the
mutex acquisition and its deferred release — the lock is held across the
broker dial, contradicting the claim. -/
theorem lock_scope_cex : ioUnderLock (connectOps false false) false = true := by
  decide

/-- C9: with maxRetries configured to 0 or a negative value the retry loop
body never runs: Publish returns the aggregate error immediately — wrapping
the nil lastErr — with no backoff wait recorded and the publisher state
untouched (no reconnect, no publish attempt). -/
theorem publish_nonpositive_retries (cfg : PublisherCfg) (envs : Nat → AttemptEnv)
    (s : PubState) (hN : cfg.maxRetries ≤ 0) :
    Publish cfg envs true s = (PublishResult.aggregate cfg.maxRetries none, [], s) := by
  unfold Publish
  rw [if_pos rfl, show cfg.maxRetries.toNat = 0 by omega]
  rfl

theorem publish_nonpositive_retries_witness :
    Publish cfgNeg (fun _ => allOkEnv) true freshState
      = (PublishResult.aggregate (-1) none, [], freshState) :=
  publish_nonpositive_retries cfgNeg (fun _ => allOkEnv) freshState (by decide)

/-- C10: the client fingerprint depends only on the concatenation of the IP
address and the User-Agent: whenever ip1 ++ ua1 = ip2 ++ ua2, the two (IP,
User-Agent) pairs are assigned identical fingerprints. -/
theorem fingerprint_concat (ip1 ua1 ip2 ua2 : String)
    (h : ip1 ++ ua1 = ip2 ++ ua2) : Generate ip1 ua1 = Generate ip2 ua2 := by
  unfold Generate
  rw [h]

theorem fingerprint_concat_witness :
    ipSampleA ++ uaSampleA = ipSampleB ++ uaSampleB ∧
    Generate ipSampleA uaSampleA = Generate ipSampleB uaSampleB :=
  ⟨by decide, fingerprint_concat ipSampleA uaSampleA ipSampleB uaSampleB (by decide)⟩

end EMIA
